import Mathlib

/-!
Verification development for the `cli-docs` repository.

The definitions below are a shallow embedding of the analysis pipeline:

* `src/code_doc_generator/analyzer.py` — exclusion policy, tree scanner
  (`CodeAnalyzer.should_ignore_path`, `get_code_files`), file analysis
  (`analyze_file`, `_detect_language`, `_extract_functions`,
  `_extract_classes`, `_extract_imports`);
* `src/doc.py` — the aggregation loop of
  `EnhancedDocumentationGenerator.generate_intelligent_docs` and
  `AIDocumentationEngine._analyze_architecture`;
* `src/build/lib/code_doc_generator/doc_generator.py` — the report builder
  `_build_comprehensive_readme` with its helpers
  `_generate_simple_file_tree` and `_extract_key_dependencies`.

Paths are modelled as their list of components (Python `Path.parts`); file
contents as Lean `String`s (the result of Python's permissive decoding,
which is modelled separately as `decodeUtf8Ignore` over the raw byte list);
the filesystem as an inductive tree handed to the scanner.
-/

/-- `CodeAnalyzer.SUPPORTED_EXTENSIONS` (a Python set; only membership is used). -/
def SUPPORTED_EXTENSIONS : List String :=
  [".py", ".js", ".ts", ".jsx", ".tsx", ".java", ".cpp", ".c", ".h",
   ".cs", ".php", ".rb", ".go", ".rs", ".kt", ".swift", ".dart"]

/-- `CodeAnalyzer.IGNORE_DIRS` (a Python set; only membership is used). -/
def IGNORE_DIRS : List String :=
  [".venv", "venv", ".env", "env", "node_modules", ".git", ".idea",
   "__pycache__", ".pytest_cache", "build", "dist", "target",
   ".gradle", ".mvn", "bin", "obj", ".vs", ".vscode", "coverage",
   ".nyc_output", "logs", "log", ".log", "temp", "tmp", ".tmp"]

/-- `CodeAnalyzer.IGNORE_FILES` (a Python set; only membership is used). -/
def IGNORE_FILES : List String :=
  [".gitignore", ".env", ".env.local", ".env.development", ".env.production",
   "package-lock.json", "yarn.lock", "poetry.lock", "Pipfile.lock",
   "requirements.txt", "setup.py", "setup.cfg", "pyproject.toml",
   "LICENSE", "README.md", "CHANGELOG.md", ".DS_Store"]

/-- `Path.name`: the final path component (empty for an empty parts list). -/
def pathName (parts : List String) : String := (parts.getLast?).getD ""

/-- `CodeAnalyzer.should_ignore_path`: true iff some component is an ignored
    directory name, or the final component is an ignored file name.  Applied by
    the scanner to the full absolute path, so the components of the project
    root itself are inspected too. -/
def shouldIgnorePath (parts : List String) : Bool :=
  parts.any (fun part => IGNORE_DIRS.contains part) ||
    IGNORE_FILES.contains (pathName parts)

/-- `PurePath.suffix`: the extension of the final component including the dot;
    empty when the name has no dot, when the only dot is the leading character,
    or when the name ends with the dot (Python: `0 < i < len(name) - 1` for
    `i = name.rfind(".")`). -/
def suffixOf (name : String) : String :=
  let cs := name.data
  match cs.reverse.findIdx? (fun c => c = '.') with
  | none => ""
  | some rj =>
    let i := cs.length - 1 - rj
    if 0 < i ∧ 0 < rj then String.mk (cs.drop i) else ""

/-- `str.lower()`; the strings it is applied to here (extensions) are ASCII,
    on which Python's `lower` agrees with per-character ASCII lowercasing. -/
def lowerStr (s : String) : String := String.mk (s.data.map Char.toLower)

/-- `sep.join(parts)`. -/
def joinSep (sep : String) : List String → String
  | [] => ""
  | [x] => x
  | x :: y :: xs => x ++ sep ++ joinSep sep (y :: xs)

/-- A directory tree, the scanner's input.  Children are listed in the order
    the operating system would return them to `os.walk`. -/
inductive FSEntry where
  | file (name : String)
  | dir (name : String) (children : List FSEntry)

/-- The per-file test of `get_code_files`:
    `not self.should_ignore_path(file_path) and
     file_path.suffix.lower() in self.SUPPORTED_EXTENSIONS`. -/
def keepFile (parts : List String) : Bool :=
  !shouldIgnorePath parts &&
    SUPPORTED_EXTENSIONS.contains (lowerStr (suffixOf (pathName parts)))

/-- The files of one directory that pass `keepFile`, as full paths. -/
def fileHits (cur : List String) (entries : List FSEntry) : List (List String) :=
  entries.filterMap fun e =>
    match e with
    | .file n => if keepFile (cur ++ [n]) then some (cur ++ [n]) else none
    | .dir _ _ => none

/-- The recursion of `os.walk` below one directory, with the in-place pruning
    `dirs[:] = [d for d in dirs if d not in self.IGNORE_DIRS]`: a subdirectory
    whose name is in `IGNORE_DIRS` is never descended into. -/
def walkDirs (cur : List String) : List FSEntry → List (List String)
  | [] => []
  | .file _ :: rest => walkDirs cur rest
  | .dir d ch :: rest =>
    (if IGNORE_DIRS.contains d then []
     else fileHits (cur ++ [d]) ch ++ walkDirs (cur ++ [d]) ch) ++ walkDirs cur rest

/-- All kept file paths below a directory, in walk order (each directory's own
    files before its subtrees; `get_code_files` sorts the result anyway). -/
def walkFrom (cur : List String) (entries : List FSEntry) : List (List String) :=
  fileHits cur entries ++ walkDirs cur entries

/-- The string form of a path: Python compares `Path` objects by their full
    string, i.e. the components joined by the separator. -/
def pathStr (parts : List String) : String := joinSep "/" parts

/-- The order `sorted` uses on the collected paths. -/
def pathLe (a b : List String) : Prop := pathStr a ≤ pathStr b

instance : DecidableRel pathLe := fun a b =>
  inferInstanceAs (Decidable (pathStr a ≤ pathStr b))

instance : IsTotal (List String) pathLe := ⟨fun a b => le_total (pathStr a) (pathStr b)⟩

instance : IsTrans (List String) pathLe := ⟨fun _ _ _ h h' => le_trans h h'⟩

/-- `CodeAnalyzer.get_code_files`: walk the tree from the resolved project root
    (whose own components are `rootParts`), filter, and return the paths sorted
    by their full string form. -/
def getCodeFiles (rootParts : List String) (entries : List FSEntry) : List (List String) :=
  List.insertionSort pathLe (walkFrom rootParts entries)

/-! ### Symbol extraction (`_extract_functions`, `_extract_classes`,
`_extract_imports`)

The Python code runs `re.findall` with a fixed pattern list per extension and
wraps the concatenated matches in `list(set(...))`.  Each pattern is a literal
keyword / character-class sequence whose greedy classes are followed by
characters disjoint from the class, so Python's backtracking engine behaves as
deterministic maximal munch; the matchers below implement exactly that.  The
single exception is `.*` in the JS `import ... from` pattern, which is
modelled by its backtracking semantics (longest skip first, within one line).
-/

/-- Python regex `\s` on the ASCII range. -/
def isWs (c : Char) : Bool :=
  c = ' ' || c = '\t' || c = '\n' || c = '\r' || c = '\x0b' || c = '\x0c'

/-- `[a-zA-Z_]` -/
def isIdentStart (c : Char) : Bool := c.isAlpha || c = '_'

/-- `[a-zA-Z0-9_]` -/
def isIdentChar (c : Char) : Bool := c.isAlphanum || c = '_'

/-- `[a-zA-Z0-9_.]` -/
def isDottedChar (c : Char) : Bool := c.isAlphanum || c = '_' || c = '.'

/-- `[^'"]` -/
def isNotQuote (c : Char) : Bool := !(c = '\'' || c = '"')

/-- Match a literal string at the head, returning the remainder. -/
def dropLit : List Char → List Char → Option (List Char)
  | [], cs => some cs
  | _ :: _, [] => none
  | l :: ls, c :: cs => if c = l then dropLit ls cs else none

/-- Match one character out of a class, returning the remainder. -/
def dropOneOf (cls : List Char) : List Char → Option (List Char)
  | [] => none
  | c :: cs => if cls.contains c then some cs else none

/-- Greedy `p+` (at least one character). -/
def dropPlus (p : Char → Bool) : List Char → Option (List Char)
  | [] => none
  | c :: cs => if p c then some (cs.dropWhile p) else none

/-- Greedy capturing group `[start][rest]*`: maximal munch. -/
def grabGroup (start rest : Char → Bool) : List Char → Option (String × List Char)
  | [] => none
  | c :: cs =>
    if start c then
      let body := cs.takeWhile rest
      some (String.mk (c :: body), cs.drop body.length)
    else none

/-- Pattern `def\s+([a-zA-Z_][a-zA-Z0-9_]*)\s*\(` at the head. -/
def pyDefMatch (cs : List Char) : Option (String × List Char) := do
  let cs ← dropLit "def".data cs
  let cs ← dropPlus isWs cs
  let (g, cs) ← grabGroup isIdentStart isIdentChar cs
  let cs ← dropLit "(".data (cs.dropWhile isWs)
  return (g, cs)

/-- Pattern `function\s+([a-zA-Z_][a-zA-Z0-9_]*)\s*\(` at the head. -/
def jsFunctionMatch (cs : List Char) : Option (String × List Char) := do
  let cs ← dropLit "function".data cs
  let cs ← dropPlus isWs cs
  let (g, cs) ← grabGroup isIdentStart isIdentChar cs
  let cs ← dropLit "(".data (cs.dropWhile isWs)
  return (g, cs)

/-- Pattern `const\s+([a-zA-Z_][a-zA-Z0-9_]*)\s*=\s*\(` at the head. -/
def jsConstMatch (cs : List Char) : Option (String × List Char) := do
  let cs ← dropLit "const".data cs
  let cs ← dropPlus isWs cs
  let (g, cs) ← grabGroup isIdentStart isIdentChar cs
  let cs ← dropLit "=".data (cs.dropWhile isWs)
  let cs ← dropLit "(".data (cs.dropWhile isWs)
  return (g, cs)

/-- Pattern `([a-zA-Z_][a-zA-Z0-9_]*)\s*=>\s*` at the head (the trailing `\s*`
    is part of the match and moves the resumption point). -/
def jsArrowMatch (cs : List Char) : Option (String × List Char) := do
  let (g, cs) ← grabGroup isIdentStart isIdentChar cs
  let cs ← dropLit "=>".data (cs.dropWhile isWs)
  return (g, cs.dropWhile isWs)

/-- Pattern `class\s+([a-zA-Z_][a-zA-Z0-9_]*)\s*[:\(]` at the head. -/
def pyClassMatch (cs : List Char) : Option (String × List Char) := do
  let cs ← dropLit "class".data cs
  let cs ← dropPlus isWs cs
  let (g, cs) ← grabGroup isIdentStart isIdentChar cs
  let cs ← dropOneOf [':', '('] (cs.dropWhile isWs)
  return (g, cs)

/-- Pattern `class\s+([a-zA-Z_][a-zA-Z0-9_]*)\s*[{]` at the head. -/
def jsClassMatch (cs : List Char) : Option (String × List Char) := do
  let cs ← dropLit "class".data cs
  let cs ← dropPlus isWs cs
  let (g, cs) ← grabGroup isIdentStart isIdentChar cs
  let cs ← dropOneOf ['\x7b'] (cs.dropWhile isWs)
  return (g, cs)

/-- Pattern `import\s+([a-zA-Z_][a-zA-Z0-9_.]*)` at the head. -/
def pyImportMatch (cs : List Char) : Option (String × List Char) := do
  let cs ← dropLit "import".data cs
  let cs ← dropPlus isWs cs
  grabGroup isIdentStart isDottedChar cs

/-- Pattern `from\s+([a-zA-Z_][a-zA-Z0-9_.]*)\s+import` at the head. -/
def pyFromImportMatch (cs : List Char) : Option (String × List Char) := do
  let cs ← dropLit "from".data cs
  let cs ← dropPlus isWs cs
  let (g, cs) ← grabGroup isIdentStart isDottedChar cs
  let cs ← dropPlus isWs cs
  let cs ← dropLit "import".data cs
  return (g, cs)

/-- The tail `from\s+['"]([^'"]+)['"]` of the JS import pattern. -/
def fromQuoteMatch (cs : List Char) : Option (String × List Char) := do
  let cs ← dropLit "from".data cs
  let cs ← dropPlus isWs cs
  let cs ← dropOneOf ['\'', '"'] cs
  let (g, cs) ← grabGroup isNotQuote isNotQuote cs
  let cs ← dropOneOf ['\'', '"'] cs
  return (g, cs)

/-- Backtracking of a greedy `.*`: try the largest skip first. -/
def searchBack (m : List Char → Option (String × List Char)) :
    Nat → List Char → Option (String × List Char)
  | 0, cs => m cs
  | j + 1, cs =>
    match m (cs.drop (j + 1)) with
    | some r => some r
    | none => searchBack m j cs

/-- Pattern `import.*from\s+['"]([^'"]+)['"]` at the head: `.*` does not cross
    a newline and is greedy, so the rightmost position on the line where the
    tail matches wins. -/
def jsImportFromMatch (cs : List Char) : Option (String × List Char) := do
  let cs ← dropLit "import".data cs
  searchBack fromQuoteMatch (cs.takeWhile (fun c => !(c = '\n'))).length cs

/-- Pattern `require\s*\(\s*['"]([^'"]+)['"]\s*\)` at the head. -/
def jsRequireMatch (cs : List Char) : Option (String × List Char) := do
  let cs ← dropLit "require".data cs
  let cs ← dropOneOf ['('] (cs.dropWhile isWs)
  let cs ← dropOneOf ['\'', '"'] (cs.dropWhile isWs)
  let (g, cs) ← grabGroup isNotQuote isNotQuote cs
  let cs ← dropOneOf ['\'', '"'] cs
  let cs ← dropOneOf [')'] (cs.dropWhile isWs)
  return (g, cs)

/-- One scanning step of `re.findall`: on a match emit its group and resume at
    the match end, otherwise advance one character.  Every matcher above
    consumes at least one character on success, so fuel `length` suffices. -/
def scanAux (m : List Char → Option (String × List Char)) :
    Nat → List Char → List String
  | 0, _ => []
  | _ + 1, [] => []
  | fuel + 1, c :: cs =>
    match m (c :: cs) with
    | some (g, rest) => g :: scanAux m fuel rest
    | none => scanAux m fuel cs

/-- `re.findall(pattern, content)` for a pattern with one capturing group. -/
def findAll (m : List Char → Option (String × List Char)) (s : String) : List String :=
  scanAux m s.data.length s.data

/-- The JS family used by the extraction branches:
    `extension in ['.js', '.ts', '.jsx', '.tsx']`. -/
def JS_EXTENSIONS : List String := [".js", ".ts", ".jsx", ".tsx"]

/-- `CodeAnalyzer._extract_functions`: findall per pattern, concatenated, then
    `list(set(...))`, modelled as `List.dedup` (Python's set iteration order is
    unspecified; only the set of names is meaningful). -/
def extractFunctions (content : String) (ext : String) : List String :=
  (if ext = ".py" then findAll pyDefMatch content
   else if JS_EXTENSIONS.contains ext then
     findAll jsFunctionMatch content ++ findAll jsConstMatch content ++
       findAll jsArrowMatch content
   else []).dedup

/-- `CodeAnalyzer._extract_classes`. -/
def extractClasses (content : String) (ext : String) : List String :=
  (if ext = ".py" then findAll pyClassMatch content
   else if JS_EXTENSIONS.contains ext then findAll jsClassMatch content
   else []).dedup

/-- `CodeAnalyzer._extract_imports`. -/
def extractImports (content : String) (ext : String) : List String :=
  (if ext = ".py" then
     findAll pyImportMatch content ++ findAll pyFromImportMatch content
   else if JS_EXTENSIONS.contains ext then
     findAll jsImportFromMatch content ++ findAll jsRequireMatch content
   else []).dedup

/-- `CodeAnalyzer._detect_language`'s `lang_map`. -/
def LANG_MAP : List (String × String) :=
  [(".py", "Python"), (".js", "JavaScript"), (".ts", "TypeScript"),
   (".jsx", "React JSX"), (".tsx", "React TSX"), (".java", "Java"),
   (".cpp", "C++"), (".c", "C"), (".h", "C/C++ Header"),
   (".cs", "C#"), (".php", "PHP"), (".rb", "Ruby"),
   (".go", "Go"), (".rs", "Rust"), (".kt", "Kotlin"),
   (".swift", "Swift"), (".dart", "Dart")]

/-- `CodeAnalyzer._detect_language`: `lang_map.get(extension.lower(), "Unknown")`. -/
def detectLanguage (ext : String) : String :=
  (LANG_MAP.lookup (lowerStr ext)).getD "Unknown"

/-- `len(content.split("\n"))`: one more than the number of newline characters. -/
def lineCount (content : String) : Nat :=
  (content.data.filter (fun c => c = '\n')).length + 1

/-- The analysis record `analyze_file` returns on success. -/
structure FileAnalysis where
  functions : List String
  classes : List String
  imports : List String
  lines : Nat
  language : String

/-- The successful branch of `CodeAnalyzer.analyze_file`; `ext` is the raw
    (non-lowercased) `file_path.suffix`, exactly as the Python code passes it
    to the extractors and to `_detect_language`. -/
def analyzeContent (content : String) (ext : String) : FileAnalysis :=
  { functions := extractFunctions content ext
    classes := extractClasses content ext
    imports := extractImports content ext
    lines := lineCount content
    language := detectLanguage ext }

/-- `CodeAnalyzer.analyze_file`.  The `open`/`read` outcome is the argument:
    `.error e` models a raised I/O exception with message `e` (caught by the
    `except` clause, which returns the error record instead of raising), and
    `.ok content` the permissively decoded file text. -/
def analyzeFile (readResult : Except String String) (ext : String) :
    Except String FileAnalysis :=
  match readResult with
  | .error e => .error ("Could not read file: " ++ e)
  | .ok content => .ok (analyzeContent content ext)

/-- One entry of `project_analysis["files"]`. -/
structure FileEntryRec where
  path : String
  analysis : FileAnalysis

/-- The `project_analysis` dict. -/
structure ProjectAnalysis where
  files : List FileEntryRec
  total_files : Nat
  project_name : String

/-- The aggregation loop shared by `generate_intelligent_docs` (doc.py) and
    `_analyze_project` (build/lib doc_generator.py): `total_files` is set to
    the number of scanned candidate files up front, then each file is analyzed
    and appended to `files` only when its analysis carries no error key.
    `scanned` pairs each scanner path (components relative to the root) with
    its read outcome. -/
def analyzeProject (projectName : String)
    (scanned : List (List String × Except String String)) : ProjectAnalysis :=
  { files := scanned.filterMap fun pr =>
      match analyzeFile pr.2 (suffixOf (pathName pr.1)) with
      | .ok a => some ⟨pathStr pr.1, a⟩
      | .error _ => none
    total_files := scanned.length
    project_name := projectName }

/-! ### Permissive decoding
(`open(file_path, "r", encoding="utf-8", errors="ignore")`)

`analyze_file` reads with `errors="ignore"`, CPython's UTF-8 decoder with the
ignore error handler: on an invalid sequence the maximal valid subpart is
skipped (nothing is emitted for it) and decoding resumes at the offending
byte.  Truncated sequences at end of data are likewise dropped. -/

/-- A multibyte UTF-8 sequence in progress: `need` continuation bytes are
    still expected, `acc` holds the code-point bits so far, and the next byte
    must lie in `[lo, hi]` (CPython's restricted second-byte ranges exclude
    overlong forms, surrogates and values above U+10FFFF). -/
structure Utf8Pending where
  need : Nat
  acc : Nat
  lo : Nat
  hi : Nat

/-- Classify a byte in the start state: an ASCII character, the lead of a
    multibyte sequence, or an invalid byte (which the ignore handler drops). -/
def utf8Start (b : Nat) : Option Char × Option Utf8Pending :=
  if b < 0x80 then (some (Char.ofNat b), none)
  else if b < 0xC2 then (none, none)
  else if b < 0xE0 then (none, some ⟨1, b - 0xC0, 0x80, 0xBF⟩)
  else if b = 0xE0 then (none, some ⟨2, 0, 0xA0, 0xBF⟩)
  else if b = 0xED then (none, some ⟨2, 0xD, 0x80, 0x9F⟩)
  else if b < 0xF0 then (none, some ⟨2, b - 0xE0, 0x80, 0xBF⟩)
  else if b = 0xF0 then (none, some ⟨3, 0, 0x90, 0xBF⟩)
  else if b = 0xF4 then (none, some ⟨3, 4, 0x80, 0x8F⟩)
  else if b < 0xF5 then (none, some ⟨3, b - 0xF0, 0x80, 0xBF⟩)
  else (none, none)

/-- The decoding loop: total on every byte list; invalid bytes produce no
    output at all (they are not replaced by any placeholder character). -/
def decodeUtf8Aux : Option Utf8Pending → List Nat → List Char
  | _, [] => []
  | none, b :: rest =>
    (match utf8Start b with
     | (some c, _) => c :: decodeUtf8Aux none rest
     | (none, p) => decodeUtf8Aux p rest)
  | some p, b :: rest =>
    if p.lo ≤ b ∧ b ≤ p.hi then
      let acc := p.acc * 64 + (b - 0x80)
      if p.need = 1 then Char.ofNat acc :: decodeUtf8Aux none rest
      else decodeUtf8Aux (some ⟨p.need - 1, acc, 0x80, 0xBF⟩) rest
    else
      (match utf8Start b with
       | (some c, _) => c :: decodeUtf8Aux none rest
       | (none, p) => decodeUtf8Aux p rest)

/-- `bytes.decode("utf-8", errors="ignore")`: the text `analyze_file` hands to
    the extractors, as a function of the file's raw bytes. -/
def decodeUtf8Ignore (bytes : List Nat) : String :=
  String.mk (decodeUtf8Aux none bytes)

/-! ### Architecture classification (`_analyze_architecture`, doc.py) -/

/-- `AIDocumentationEngine._analyze_architecture`: compare the summed class
    count against the summed function count.  The float comparison
    `total_classes > total_functions * 0.3` is modelled by the exact
    cross-multiplied form `3 * F < 10 * C`; at every count appearing in the
    claims the float product `F * 0.3` rounds to the exact rational `3F/10`,
    so the two forms take the same branch. -/
def analyzeArchitecture (pa : ProjectAnalysis) : String :=
  let totalClasses : Nat := (pa.files.map (fun f => f.analysis.classes.length)).sum
  let totalFunctions : Nat := (pa.files.map (fun f => f.analysis.functions.length)).sum
  if 3 * totalFunctions < 10 * totalClasses then
    "Object-Oriented with strong class hierarchy"
  else if totalClasses * 3 < totalFunctions then
    "Functional/Procedural programming style"
  else
    "Mixed architectural patterns"

/-! ### Report builder (`_build_comprehensive_readme`,
`src/build/lib/code_doc_generator/doc_generator.py`) -/

/-- The `ai_overview` dict handed to the builder (the project-level summary).
    Fields are optional because the builder reads every key through
    `dict.get` with a default. -/
structure AIOverview where
  project_type : Option String := none
  project_description : Option String := none
  main_features : Option (List String) := none
  tech_stack : Option (List String) := none
  installation_steps : Option (List String) := none
  usage_instructions : Option (List String) := none
  project_structure_explanation : Option String := none
  target_audience : Option String := none

/-- Helper for `f"{n:,}"`: walk the digits least-significant first and insert
    a comma before every fourth, seventh, ... digit. -/
def commaRevAux : List Char → Nat → List Char
  | [], _ => []
  | c :: cs, i =>
    if 0 < i ∧ i % 3 = 0 then ',' :: c :: commaRevAux cs (i + 1)
    else c :: commaRevAux cs (i + 1)

/-- Python `f"{n:,}"`: decimal digits grouped in threes by commas. -/
def commaFmt (n : Nat) : String :=
  String.mk (commaRevAux (toString n).data.reverse 0).reverse

/-- Ascending sort of strings (Python `sorted` on strings). -/
def sortStr (l : List String) : List String :=
  List.insertionSort (fun a b : String => a ≤ b) l

/-- `str.startswith(".")`. -/
def startsWithDot (s : String) : Bool :=
  match s.data with
  | '.' :: _ => true
  | _ => false

/-- The well-known libraries `_extract_key_dependencies` surfaces first. -/
def PRIORITY_LIBS : List String :=
  ["flask", "django", "fastapi", "streamlit", "pandas", "numpy",
   "matplotlib", "scikit-learn", "tensorflow", "pytorch", "requests"]

/-- The ubiquitous imports `_extract_key_dependencies` skips. -/
def SKIP_IMPORTS : List String := ["os", "sys", "re", "json", "typing"]

/-- `_extract_key_dependencies`: non-relative, non-ubiquitous imports across
    all files; the well-known ones first, then the rest in sorted order,
    capped at 15.  The two Python sets are modelled as lists deduplicated in
    first-occurrence order (set iteration order is unspecified but fixed
    within one process). -/
def extractKeyDependencies (files : List FileEntryRec) : List String :=
  let allImports := (((files.map (fun f => f.analysis.imports)).flatten).filter
    (fun imp => !startsWithDot imp && !SKIP_IMPORTS.contains imp)).dedup
  let priorityImports := allImports.filter (fun imp => PRIORITY_LIBS.contains imp)
  (priorityImports ++
    (sortStr allImports).filter (fun imp => !priorityImports.contains imp)).take 15

/-- Split a relative path string on the separator (`Path(p).parts` for the
    normalized relative paths stored in `files`). -/
def splitOnChar (sep : Char) : List Char → List String
  | [] => [""]
  | c :: rest =>
    let r := splitOnChar sep rest
    if c = sep then "" :: r
    else
      match r with
      | [] => [String.mk [c]]
      | s :: ss => String.mk (c :: s.data) :: ss

/-- Append a value to a key's list in an insertion-ordered dict
    (`dirs.setdefault(k, []).append(v)` behaviour of the builder's loop). -/
def assocAppend (k v : String) : List (String × List String) → List (String × List String)
  | [] => [(k, [v])]
  | (k', vs) :: rest =>
    if k' = k then (k', vs ++ [v]) :: rest else (k', vs) :: assocAppend k v rest

/-- Order on the grouped-directory dict items: Python's `sorted(dirs.items())`
    compares the key first, and keys are unique in a dict. -/
def keyLe (a b : String × List String) : Prop := a.1 ≤ b.1

instance : DecidableRel keyLe := fun a b =>
  inferInstanceAs (Decidable (a.1 ≤ b.1))

instance : IsTotal (String × List String) keyLe := ⟨fun a b => le_total a.1 b.1⟩

instance : IsTrans (String × List String) keyLe := ⟨fun _ _ _ h h' => le_trans h h'⟩

/-- `_generate_simple_file_tree`: group the files by top-level directory
    (single-component paths under the key `"root"`), print up to 5 root files,
    then up to 5 directories with up to 3 files each and an overflow count. -/
def generateSimpleFileTree (projectName : String) (files : List FileEntryRec) : String :=
  if files.isEmpty then projectName ++ "/"
  else
    let dirs := files.foldl (fun acc f =>
      let parts := splitOnChar '/' f.path.data
      if 1 < parts.length then assocAppend (parts.headD "") (pathName parts) acc
      else assocAppend "root" (pathName parts) acc) []
    let treeStart := [projectName ++ "/"]
    let rootLines := ((sortStr ((dirs.lookup "root").getD [])).take 5).map
      (fun file => "├── " ++ file)
    let rest := dirs.filter (fun g => !(g.1 = "root"))
    let dirLines := ((List.insertionSort keyLe rest).take 5).map (fun g =>
      ("├── " ++ g.1 ++ "/") ::
        ((sortStr g.2).take 3).map (fun file => "│   ├── " ++ file) ++
        (if 3 < g.2.length then
          ["│   └── ... (" ++ toString (g.2.length - 3) ++ " more files)"]
         else []))
    joinSep "\n" (treeStart ++ rootLines ++ dirLines.flatten)

/-- Every part of the built README before the final timestamp line, in the
    exact order `_build_comprehensive_readme` appends them. -/
def readmeStemParts (projectName : String) (pa : ProjectAnalysis)
    (ov : AIOverview) : List String :=
  let languages := ((pa.files.map (fun f => f.analysis.language)).dedup).filter
    (fun lang => !(lang = ""))
  let totalLines := (pa.files.map (fun f => f.analysis.lines)).sum
  let features := ov.main_features.getD []
  let techStack := ov.tech_stack.getD []
  let deps := extractKeyDependencies pa.files
  let structureExplanation := ov.project_structure_explanation.getD ""
  let targetAudience := ov.target_audience.getD ""
  ["# " ++ projectName, "",
   "**" ++ ov.project_type.getD "Software Project" ++ "**", "",
   ov.project_description.getD "A well-crafted software project.", "",
   "## 📊 Project Stats", "",
   "- **Files**: " ++ toString pa.total_files,
   "- **Languages**: " ++ joinSep ", " (sortStr languages),
   "- **Lines of Code**: " ++ commaFmt totalLines, ""]
  ++ (if features.isEmpty then []
      else ["## ✨ Features", ""] ++ features.map (fun f => "- " ++ f) ++ [""])
  ++ (if techStack.isEmpty then []
      else ["## 🛠️ Tech Stack", ""] ++ techStack.map (fun t => "- **" ++ t ++ "**") ++ [""])
  ++ ["## 🚀 Installation", ""]
  ++ (ov.installation_steps.getD []).enum.map
      (fun st => toString (st.1 + 1) ++ ". " ++ st.2)
  ++ [""]
  ++ ["## 💻 Usage", ""]
  ++ (ov.usage_instructions.getD []).map (fun ins => "- " ++ ins)
  ++ [""]
  ++ (if structureExplanation = "" then []
      else ["## 📁 Project Structure", "", structureExplanation, "",
            "```", generateSimpleFileTree projectName pa.files, "```", ""])
  ++ (if deps.isEmpty then []
      else ["## 📦 Key Dependencies", ""] ++
        (deps.take 10).map (fun dep => "- `" ++ dep ++ "`") ++ [""])
  ++ ["## 🤝 Contributing", "",
      "Contributions are welcome! Please feel free to submit a Pull Request.", ""]
  ++ (if targetAudience = "" then []
      else ["## 👥 Target Audience", "", targetAudience, ""])
  ++ ["---"]

/-- `_build_comprehensive_readme`: the parts above followed by
    `f"*Generated on: {datetime.now().strftime(...)}*"`, newline-joined.
    `now` is the formatted wall-clock time read inside the function. -/
def buildComprehensiveReadme (projectName : String) (pa : ProjectAnalysis)
    (ov : AIOverview) (now : String) : String :=
  joinSep "\n" (readmeStemParts projectName pa ov ++ ["*Generated on: " ++ now ++ "*"])

/-! ### Concrete inputs used by counterexamples and witnesses -/

/-- A project analysis whose single file carries the given class and function
    counts (`_analyze_architecture` only reads the two list lengths). -/
def archInput (numClasses numFunctions : Nat) : ProjectAnalysis :=
  { files := [⟨"a.py",
      ⟨List.replicate numFunctions "f", List.replicate numClasses "C",
       [], 1, "Python"⟩⟩],
    total_files := 1,
    project_name := "p" }

/-- An empty project analysis. -/
def emptyAnalysis : ProjectAnalysis :=
  { files := [], total_files := 0, project_name := "p" }

/-- An overview dict with every key absent (all `dict.get` defaults apply). -/
def emptyOverview : AIOverview := {}

/-! ## Helper lemmas -/

theorem joinSep_append_last (sep y : String) :
    ∀ (xs : List String), xs ≠ [] →
      joinSep sep (xs ++ [y]) = joinSep sep xs ++ sep ++ y
  | [], h => absurd rfl h
  | [_], _ => rfl
  | x :: x' :: xs, _ => by
    have ih := joinSep_append_last sep y (x' :: xs) (List.cons_ne_nil x' xs)
    show x ++ sep ++ joinSep sep ((x' :: xs) ++ [y]) =
      x ++ sep ++ joinSep sep (x' :: xs) ++ sep ++ y
    rw [ih]
    simp [String.append_assoc]

theorem readmeStemParts_ne_nil (n : String) (pa : ProjectAnalysis) (ov : AIOverview) :
    readmeStemParts n pa ov ≠ [] :=
  fun h => List.noConfusion h

theorem mem_fileHits_ignore (cur : List String) (entries : List FSEntry)
    (p : List String) (hp : p ∈ fileHits cur entries) :
    shouldIgnorePath p = false := by
  simp only [fileHits, List.mem_filterMap] at hp
  obtain ⟨e, _, he⟩ := hp
  cases e with
  | file n =>
    simp only at he
    split at he
    next hk =>
      cases he
      have hk' := hk
      simp only [keepFile, Bool.and_eq_true, Bool.not_eq_true'] at hk'
      exact hk'.1
    next => cases he
  | dir d ch => cases he

theorem mem_walkDirs_ignore :
    ∀ (cur : List String) (entries : List FSEntry) (p : List String),
      p ∈ walkDirs cur entries → shouldIgnorePath p = false := by
  intro cur entries
  induction cur, entries using walkDirs.induct with
  | case1 cur => intro p hp; simp [walkDirs] at hp
  | case2 cur _ rest ih => intro p hp; rw [walkDirs] at hp; exact ih p hp
  | case3 cur d ch rest ih1 ih2 =>
    intro p hp
    rw [walkDirs] at hp
    rcases List.mem_append.1 hp with h | h
    · split at h
      · simp at h
      · rcases List.mem_append.1 h with h' | h'
        · exact mem_fileHits_ignore _ _ _ h'
        · exact ih1 p h'
    · exact ih2 p h

theorem shouldIgnorePath_of_mem (parts : List String) (c : String)
    (hc : IGNORE_DIRS.contains c = true) (hm : c ∈ parts) :
    shouldIgnorePath parts = true := by
  simp only [shouldIgnorePath, Bool.or_eq_true, List.any_eq_true]
  exact Or.inl ⟨c, hm, hc⟩

theorem fileHits_nil_of_ignored (cur : List String) (entries : List FSEntry)
    (c : String) (hc : IGNORE_DIRS.contains c = true) (hm : c ∈ cur) :
    fileHits cur entries = [] := by
  rw [fileHits, List.filterMap_eq_nil_iff]
  intro e _
  cases e with
  | file n =>
    have hig : shouldIgnorePath (cur ++ [n]) = true :=
      shouldIgnorePath_of_mem _ c hc (List.mem_append_left _ hm)
    simp [keepFile, hig]
  | dir d ch => rfl

theorem walkDirs_nil_of_ignored :
    ∀ (cur : List String) (entries : List FSEntry),
      ∀ (c : String), IGNORE_DIRS.contains c = true → c ∈ cur →
        walkDirs cur entries = [] := by
  intro cur entries
  induction cur, entries using walkDirs.induct with
  | case1 cur => intro c hc hm; rw [walkDirs]
  | case2 cur _ rest ih => intro c hc hm; rw [walkDirs]; exact ih c hc hm
  | case3 cur d ch rest ih1 ih2 =>
    intro c hc hm
    rw [walkDirs]
    rw [ih2 c hc hm, List.append_nil]
    split
    · rfl
    · rw [fileHits_nil_of_ignored (cur ++ [d]) ch c hc (List.mem_append_left _ hm),
        ih1 c hc (List.mem_append_left _ hm)]
      rfl

/-! ## Claims -/

/-- C1 (counterexample): a run over two scanned files, one of which fails to
    read, produces `total_files = 2` but `len(files) = 1`: the equality does
    NOT hold when some scanned file is unreadable, because `total_files` is set
    to the scanner's candidate count before any file is read. -/
theorem total_files_mismatch_on_read_failure :
    ¬ ((analyzeProject "p"
        [(["a.py"], Except.ok "def f(): pass"),
         (["b.py"], Except.error "Permission denied")]).total_files =
       (analyzeProject "p"
        [(["a.py"], Except.ok "def f(): pass"),
         (["b.py"], Except.error "Permission denied")]).files.length) := by
  decide

/-- C1 (amended): `total_files` equals the number of scanned candidate files;
    files whose read fails are dropped from `files` (never inserted as error
    records), so `len(files) ≤ total_files`, with equality exactly when every
    scanned file is readable. -/
theorem total_files_counts_scanned_candidates :
    ∀ (projectName : String) (scanned : List (List String × Except String String)),
      (analyzeProject projectName scanned).total_files = scanned.length ∧
      (analyzeProject projectName scanned).files.length ≤ scanned.length ∧
      ((∀ pr ∈ scanned, pr.2.isOk = true) →
        (analyzeProject projectName scanned).files.length = scanned.length) := by
  intro pn scanned
  refine ⟨rfl, List.length_filterMap_le _ _, ?_⟩
  intro h
  induction scanned with
  | nil => rfl
  | cons pr rest ih =>
    obtain ⟨p, r⟩ := pr
    cases r with
    | error e =>
      have := h (p, Except.error e) (List.mem_cons_self _ _)
      simp [Except.isOk, Except.toBool] at this
    | ok c =>
      have ih' := ih (fun pr hpr => h pr (List.mem_cons_of_mem _ hpr))
      simp only [analyzeProject, List.filterMap_cons, analyzeFile] at ih' ⊢
      simp only [List.length_cons, List.length_cons]
      omega

/-- C1 (witness): on an all-readable input both counts are 1. -/
theorem total_files_counts_scanned_candidates_witness :
    (analyzeProject "p" [(["a.py"], Except.ok "def f(): pass")]).total_files = 1 ∧
    (analyzeProject "p" [(["a.py"], Except.ok "def f(): pass")]).files.length = 1 :=
  ⟨(total_files_counts_scanned_candidates "p"
      [(["a.py"], Except.ok "def f(): pass")]).1,
   (total_files_counts_scanned_candidates "p"
      [(["a.py"], Except.ok "def f(): pass")]).2.2 (by decide)⟩

/-- C2 (counterexample): with 2 classes and 5 functions the classifier does
    NOT report mixed: `2 > 5 * 0.3 = 1.5`, so the object-oriented branch is
    taken first. -/
theorem architecture_two_five_not_mixed :
    ¬ (analyzeArchitecture (archInput 2 5) = "Mixed architectural patterns") := by
  decide

/-- C2 (amended): classes=4, functions=10 classifies object-oriented;
    classes=1, functions=10 classifies functional; classes=2, functions=5
    classifies object-oriented (not mixed as claimed, since 2 > 1.5). -/
theorem architecture_classification_boundaries :
    analyzeArchitecture (archInput 4 10) = "Object-Oriented with strong class hierarchy" ∧
    analyzeArchitecture (archInput 1 10) = "Functional/Procedural programming style" ∧
    analyzeArchitecture (archInput 2 5) = "Object-Oriented with strong class hierarchy" := by
  refine ⟨?_, ?_, ?_⟩ <;> decide

set_option maxRecDepth 10000 in
/-- C3 (counterexample): the report builder reads the wall clock, so rendering
    the identical analysis and overview at two different instants yields
    different output text: the document is not a function of those two inputs
    alone. -/
theorem readme_differs_across_timestamps :
    ¬ (buildComprehensiveReadme "p" emptyAnalysis emptyOverview "2024-01-01 00:00:00" =
       buildComprehensiveReadme "p" emptyAnalysis emptyOverview "2024-01-02 00:00:00") := by
  decide

/-- C3 (amended): the built document is a deterministic function of the
    analysis, the overview and the generation timestamp, and the two inputs
    alone determine everything except the trailing timestamp text: the output
    is a timestamp-independent stem followed by `*Generated on: <now>*`. -/
theorem readme_deterministic_up_to_timestamp :
    ∀ (projectName : String) (pa : ProjectAnalysis) (ov : AIOverview) (now : String),
      buildComprehensiveReadme projectName pa ov now =
        joinSep "\n" (readmeStemParts projectName pa ov) ++ "\n" ++
          ("*Generated on: " ++ now ++ "*") := by
  intro n pa ov now
  exact joinSep_append_last "\n" _ _ (readmeStemParts_ne_nil n pa ov)

/-- C4: no path excluded by the directory-name or file-name rules ever appears
    in the scanner's output, and the scanner never descends into an excluded
    directory: the entire subtree of an ignored directory is irrelevant to the
    result, even when it contains files with supported extensions. -/
theorem scanner_never_yields_excluded_paths :
    (∀ (rootParts : List String) (entries : List FSEntry) (p : List String),
        p ∈ getCodeFiles rootParts entries → shouldIgnorePath p = false) ∧
    (∀ (rootParts : List String) (d : String) (children rest : List FSEntry),
        IGNORE_DIRS.contains d = true →
        getCodeFiles rootParts (FSEntry.dir d children :: rest) =
          getCodeFiles rootParts rest) := by
  constructor
  · intro rootParts entries p hp
    have hp' : p ∈ walkFrom rootParts entries :=
      (List.perm_insertionSort pathLe _).mem_iff.1 hp
    rcases List.mem_append.1 hp' with h | h
    · exact mem_fileHits_ignore _ _ _ h
    · exact mem_walkDirs_ignore _ _ _ h
  · intro rootParts d children rest h
    have h' : d ∈ IGNORE_DIRS := by simpa using h
    unfold getCodeFiles
    congr 1
    simp [walkFrom, walkDirs, fileHits, List.filterMap_cons, h']

/-- C4 (witness): a concrete kept path is not excluded, and a concrete
    `node_modules` subtree containing a supported `.js` file contributes
    nothing. -/
theorem scanner_never_yields_excluded_paths_witness :
    shouldIgnorePath ["p", "a.py"] = false ∧
    getCodeFiles ["p"]
      [FSEntry.dir "node_modules" [FSEntry.file "x.js"], FSEntry.file "a.py"] =
      getCodeFiles ["p"] [FSEntry.file "a.py"] :=
  ⟨scanner_never_yields_excluded_paths.1 ["p"] [FSEntry.file "a.py"] ["p", "a.py"]
      (by simp [getCodeFiles, walkFrom, walkDirs, fileHits]),
   scanner_never_yields_excluded_paths.2 ["p"] "node_modules" [FSEntry.file "x.js"]
      [FSEntry.file "a.py"] (by decide)⟩

/-- C5: the scanner's result is the walk's candidate set sorted
    lexicographically by full path string — a deterministic function of the
    input tree, hence identical across runs. -/
theorem scanner_output_sorted_by_full_path :
    ∀ (rootParts : List String) (entries : List FSEntry),
      List.Sorted pathLe (getCodeFiles rootParts entries) ∧
      List.Perm (getCodeFiles rootParts entries) (walkFrom rootParts entries) :=
  fun _ _ => ⟨List.sorted_insertionSort pathLe _, List.perm_insertionSort pathLe _⟩

/-- C6: on a read failure `analyze_file` returns a per-file error record
    instead of raising, and the aggregator drops exactly that file: the
    aggregate's `files` over a list containing a failing entry equals the one
    over the same list without it, so one unreadable file never aborts the run. -/
theorem read_failure_is_per_file_and_dropped :
    (∀ (e ext : String),
        analyzeFile (Except.error e) ext =
          Except.error ("Could not read file: " ++ e)) ∧
    (∀ (projectName : String)
        (pre post : List (List String × Except String String))
        (p : List String) (e : String),
        (analyzeProject projectName (pre ++ (p, Except.error e) :: post)).files =
          (analyzeProject projectName (pre ++ post)).files) := by
  constructor
  · intro e ext; rfl
  · intro n pre post p e
    simp [analyzeProject, List.filterMap_append, List.filterMap_cons, analyzeFile]

/-- C7 (counterexample): decoding the invalid byte 0xFF with the ignore
    handler yields the empty string — the byte is dropped, not substituted by
    the replacement-character placeholder U+FFFD. -/
theorem ignore_decoding_drops_without_placeholder :
    decodeUtf8Ignore [255] = "" ∧
    ¬ (decodeUtf8Ignore [255] = String.mk [Char.ofNat 0xFFFD]) := by
  exact ⟨by decide, by decide⟩

/-- C7 (amended): file analysis never throws on malformed or binary-looking
    content — the bytes are decoded permissively and analysis always succeeds
    — but invalid byte sequences are dropped (decoded to nothing), not
    replaced by a placeholder. -/
theorem analysis_total_on_malformed_content :
    (∀ (bytes : List Nat) (ext : String),
        analyzeFile (Except.ok (decodeUtf8Ignore bytes)) ext =
          Except.ok (analyzeContent (decodeUtf8Ignore bytes) ext)) ∧
    (∀ (bytes : List Nat), decodeUtf8Ignore (255 :: bytes) = decodeUtf8Ignore bytes) := by
  constructor
  · intro bs ext; rfl
  · intro bs
    simp [decodeUtf8Ignore, decodeUtf8Aux, utf8Start]

/-- C8: for every content and extension the extracted functions, classes and
    imports are each deduplicated — any name occurring in one of them occurs
    exactly once. -/
theorem symbol_collections_deduplicated :
    ∀ (content ext : String),
      (extractFunctions content ext).Nodup ∧
      (extractClasses content ext).Nodup ∧
      (extractImports content ext).Nodup ∧
      (∀ n, n ∈ extractFunctions content ext →
        (extractFunctions content ext).count n = 1) ∧
      (∀ n, n ∈ extractClasses content ext →
        (extractClasses content ext).count n = 1) ∧
      (∀ n, n ∈ extractImports content ext →
        (extractImports content ext).count n = 1) := by
  intro c e
  refine ⟨List.nodup_dedup _, List.nodup_dedup _, List.nodup_dedup _, ?_, ?_, ?_⟩ <;>
    exact fun n hn => List.count_eq_one_of_mem (List.nodup_dedup _) hn

/-- C8 (witness): a file declaring `foo` twice yields exactly one entry. -/
theorem symbol_collections_deduplicated_witness :
    "foo" ∈ extractFunctions "def foo(): pass\ndef foo(): pass" ".py" ∧
    (extractFunctions "def foo(): pass\ndef foo(): pass" ".py").count "foo" = 1 :=
  ⟨by decide,
   (symbol_collections_deduplicated "def foo(): pass\ndef foo(): pass" ".py").2.2.2.1
     "foo" (by decide)⟩

/-- C9: if any component of the project root's own resolved path is in the
    ignored-directory set, `get_code_files` returns the empty list whatever the
    tree contains, because `should_ignore_path` inspects full absolute paths. -/
theorem ignored_ancestor_component_empties_scan :
    ∀ (rootParts : List String) (c : String) (entries : List FSEntry),
      IGNORE_DIRS.contains c = true → c ∈ rootParts →
      getCodeFiles rootParts entries = [] := by
  intro rootParts c entries hc hm
  unfold getCodeFiles walkFrom
  rw [fileHits_nil_of_ignored rootParts entries c hc hm,
    walkDirs_nil_of_ignored rootParts entries c hc hm]
  rfl

/-- C9 (witness): a root under an ancestor directory named `build` yields no
    files even though the tree holds a supported `.py` file. -/
theorem ignored_ancestor_component_empties_scan_witness :
    getCodeFiles ["", "home", "build", "proj"] [FSEntry.file "main.py"] = [] :=
  ignored_ancestor_component_empties_scan ["", "home", "build", "proj"] "build"
    [FSEntry.file "main.py"] (by decide) (by decide)

/-- C10: a file named `MAIN.PY` is included by the scanner (the extension
    check lowercases), language detection still maps it to Python (the lookup
    lowercases), but all three extraction collections are empty because the
    extraction branches compare the raw suffix `.PY`. -/
theorem uppercase_extension_included_but_unextracted :
    getCodeFiles ["proj"] [FSEntry.file "MAIN.PY"] = [["proj", "MAIN.PY"]] ∧
    detectLanguage ".PY" = "Python" ∧
    ∀ (content : String),
      extractFunctions content ".PY" = [] ∧
      extractClasses content ".PY" = [] ∧
      extractImports content ".PY" = [] := by
  refine ⟨by simp [getCodeFiles, walkFrom, walkDirs, fileHits], by decide, ?_⟩
  exact fun _ => ⟨rfl, rfl, rfl⟩
